import Mathlib

/-!
Verification of the sslearn semi-supervised wrapper engines.

The definitions below are a shallow embedding of the code in
src/sslearn/wrapper/_self.py and src/sslearn/wrapper/_co.py.  Feature rows
are lists (or abstract elements) instead of numpy arrays, probabilities are
rationals, and the trained classifiers are abstracted as the deterministic
functions required by the capability contract of the spec (predict and
predict_proba composed with classes_ become plain functions).  The numpy
index machinery (argsort, boolean masks, fancy indexing, np.delete) is
modelled by explicit list operations.
-/

namespace Sslearn

/-- Boolean mask fancy indexing as in numpy: keep the entries of `xs`
whose mask entry is `true` (extra entries of either list are dropped,
matching equal-length numpy arrays). -/
def maskSelect : List α → List Bool → List α
  | x :: xs, b :: m => if b then x :: maskSelect xs m else maskSelect xs m
  | _, _ => []

/-- Integer fancy indexing as in numpy: the rows of `xs` at the listed
positions. -/
def listSelect (xs : List α) (idxs : List Nat) : List α :=
  idxs.filterMap (fun i => xs.get? i)

/-- Model of numpy np.delete(xs, idxs, axis=0): keep the rows whose
position is not listed in `idxs`. -/
def npDelete (xs : List α) (idxs : List Nat) : List α :=
  listSelect xs ((List.range xs.length).filter (fun i => decide (¬ i ∈ idxs)))

/-- Model of numpy argsort: the positions of `vals` sorted by increasing
value. -/
def argsort (vals : List ℚ) : List Nat :=
  List.insertionSort (fun i j => vals.getD i 0 ≤ vals.getD j 0) (List.range vals.length)

/-- State carried across Setred.fit iterations (_self.py): the growing
labeled set and the shrinking unlabeled pool. -/
structure SetredState (α C : Type) where
  X_label : List α
  y_label : List C
  X_unlabel : List α
deriving DecidableEq

/-- One Setred.fit iteration body (_self.py lines 101-158).  The base
classifier is abstracted per the capability contract: `conf x` is the
maximal predict_proba entry of row `x` and `cls x` the class attaining it
(classes_[argmax]).  `sampleIdx` lists the positions into X_unlabel chosen
by the resample draw, `to_add` is the outcome of the statistical acceptance
test for each candidate, and `k` is each_iteration_candidates, the size of
the initial labeled set.  The code computes `indexes` as positions into the
drawn pool `U_`, appends the accepted candidates to the labeled set and
then calls np.delete(X_unlabel, indexes[to_add]). -/
def setred_step (k : Nat) (conf : α → ℚ) (cls : α → C) (sampleIdx : List Nat)
    (to_add : List Bool) (s : SetredState α C) : SetredState α C :=
  let U_ := listSelect s.X_unlabel sampleIdx
  let predictions := U_.map conf
  let indexes := (argsort predictions).drop (predictions.length - k)
  let L_ := listSelect U_ indexes
  let y_ := L_.map cls
  let L_filtered := maskSelect L_ to_add
  let y_filtered := maskSelect y_ to_add
  let to_delete := maskSelect indexes to_add
  { X_label := s.X_label ++ L_filtered
    y_label := s.y_label ++ y_filtered
    X_unlabel := npDelete s.X_unlabel to_delete }

/-- Selection of the candidate for one class in the incremental mode of
Rasco.fit (_co.py line 765): numpy boolean indexing of the argsort array by
the mask `pseudoy == class_`, then the last element; `none` is the
IndexError branch, which is caught and turned into a ConvergenceWarning.
The mask is evaluated at the positions of the argsort array, not at the
instance positions it stores. -/
def rasco_pick [DecidableEq C] (predictions : List ℚ) (pseudoy : List C)
    (c : C) : Option Nat :=
  (maskSelect (argsort predictions) (pseudoy.map (fun p => decide (p = c)))).getLast?

/-- Candidate (position, class) pairs of one incremental Rasco iteration
(_co.py lines 760-774): the loop over cfs[0].classes_ appends one pair per
class whose pick succeeds and skips the class with a warning otherwise. -/
def rasco_incremental [DecidableEq C] (classes : List C) (predictions : List ℚ)
    (pseudoy : List C) : List (Nat × C) :=
  classes.filterMap (fun c => (rasco_pick predictions pseudoy c).map (fun j => (j, c)))

/-- Classes whose pick raises IndexError, so that the ConvergenceWarning is
emitted and the class contributes nothing (_co.py lines 767-773). -/
def rasco_warned [DecidableEq C] (classes : List C) (predictions : List ℚ)
    (pseudoy : List C) : List C :=
  classes.filter (fun c => (rasco_pick predictions pseudoy c).isNone)

/-- State carried across Rasco.fit iterations. -/
structure RascoState (α C : Type) where
  X_label : List α
  y_label : List C
  X_unlabel : List α
deriving DecidableEq

/-- One incremental Rasco.fit iteration body (_co.py lines 748-781): the
ensemble is abstracted as the averaged-confidence function `conf` and the
predicted-class function `cls` (classes_[argmax] of the averaged
probabilities); the accepted instances are appended to the labeled set with
the loop label `yj` and removed from the unlabeled pool with np.delete. -/
def rasco_step [DecidableEq C] (classes : List C) (conf : α → ℚ) (cls : α → C)
    (s : RascoState α C) : RascoState α C :=
  let predictions := s.X_unlabel.map conf
  let pseudoy := s.X_unlabel.map cls
  let sel := rasco_incremental classes predictions pseudoy
  let Lj := sel.map Prod.fst
  let yj := sel.map Prod.snd
  { X_label := s.X_label ++ listSelect s.X_unlabel Lj
    y_label := s.y_label ++ yj
    X_unlabel := npDelete s.X_unlabel Lj }

/-- Exceptions of the Python runtime that the embedded code can raise. -/
inductive PyError
  | attributeError
  | typeError
  | keyError
  | valueError
deriving DecidableEq

/-- State of CoTraining.fit between iterations (_co.py lines 517-533): the
binarized label array over global row indices, the labeled index list L,
the shuffled unlabeled reserve U and the active pool U_. -/
structure CoTrainState where
  y : List Int
  L : List Nat
  U : List Nat
  U_ : List Nat
deriving DecidableEq

/-- Assignment y[idx] = v for every global index idx in the list. -/
def setAtAll (y : List Int) (idxs : List Nat) (v : Int) : List Int :=
  (List.range y.length).map (fun i => if i ∈ idxs then v else y.getD i 0)

/-- The initial active-pool split of CoTraining.fit (lines 521-523, after
the assert poolsize > 0): U_ takes the last min(len(U), poolsize) shuffled
indices and U keeps the rest. -/
def co_training_pool_init (poolsize : Nat) (U : List Nat) : List Nat × List Nat :=
  let U_ := U.drop (U.length - min U.length poolsize)
  (U.take (U.length - U_.length), U_)

/-- The merge, removal and refill segment of one CoTraining.fit iteration
(lines 561-573).  `p` and `n` hold the positions into U_ selected by the
two classifiers (lines 545-559); the code labels U_[x] for x in p and n,
extends L with those global indices, then filters U_ by testing whether the
pool element itself occurs in p or n, and finally pops len(p)+len(n)
elements from the end of U into U_. -/
def co_training_update (p n : List Nat) (s : CoTrainState) : CoTrainState :=
  let newP := listSelect s.U_ p
  let newN := listSelect s.U_ n
  let y2 := setAtAll (setAtAll s.y newP 1) newN 0
  let L2 := s.L ++ newP ++ newN
  let U_1 := s.U_.filter (fun elem => decide (¬ (elem ∈ p ∨ elem ∈ n)))
  let num_to_add := min (p.length + n.length) s.U.length
  { y := y2
    L := L2
    U := s.U.take (s.U.length - num_to_add)
    U_ := U_1 ++ (s.U.drop (s.U.length - num_to_add)).reverse }

/-- State of CoTrainingByCommittee.fit between iterations (lines
1349-1408): the growing labeled data and the remaining slice of the fixed
random permutation of unlabeled positions. -/
structure CommitteeState (α C : Type) where
  X_label : List α
  y_label : List C
  permutation : List Nat
deriving DecidableEq

/-- One CoTrainingByCommittee.fit iteration body (lines 1364-1408).  The
ensemble prediction on the window permutation[0:poolsize] is abstracted as
the list `class_predicted`, and the union of the per-class confidence floor
with the proportion-aware policy (choice_with_proportion lives in
sslearn.utils, outside the sources) as the Boolean mask `added`. -/
def co_committee_step (poolsize : Nat) (X_unlabel : List α)
    (class_predicted : List C) (added : List Bool) (s : CommitteeState α C) :
    CommitteeState α C :=
  let window := s.permutation.take poolsize
  let index := maskSelect window added
  { X_label := s.X_label ++ listSelect X_unlabel index
    y_label := s.y_label ++ maskSelect class_predicted added
    permutation := s.permutation.filter (fun x => decide (¬ x ∈ index)) }

/-- Modelled from the spec: safe_division belongs to sslearn.utils, which
is not among the sources.  Section 7 of the spec says a ratio with a
possibly-zero denominator substitutes a fixed small epsilon for the
denominator instead of propagating a division error. -/
def safe_division (dividend divisor epsilon : ℚ) : ℚ :=
  if divisor = 0 then dividend / epsilon else dividend / divisor

/-- TriTraining._measure_error (lines 1120-1144) applied to the prediction
lists y1 = h1.predict(X) and y2 = h2.predict(X) and the true labels y: the
count of instances where the two hypotheses agree and are both wrong,
divided by the count of instances where they agree, through safe_division. -/
def measure_error [DecidableEq C] (y1 y2 y : List C) (epsilon : ℚ) : ℚ :=
  let error := (((y1.zip y2).zip y).filter
    (fun p => decide (p.1.1 = p.1.2 ∧ ¬ p.1.2 = p.2))).length
  let coincidence := ((y1.zip y2).filter (fun p => decide (p.1 = p.2))).length
  safe_division (error : ℚ) (coincidence : ℚ) epsilon

/-- Minimal pure pseudo-random generator standing for the seeded numpy
RandomState stream returned by check_random_state: each draw advances the
state deterministically. -/
def rng_next (g : Nat) : Nat × Nat :=
  let g2 := (g * 1103515245 + 12345) % 2147483648
  (g2 / 65536, g2)

/-- Outcome of the round decision of one TriTraining learner. -/
structure TriLearnerResult (α C : Type) where
  update : Bool
  L : List α
  Ly : List C
  e : ℚ
  l : Int
  g : Nat

/-- The round decision for learner i in TriTraining.fit (lines 1251-1279),
with the two other hypotheses abstracted as the prediction functions of
the capability contract.  It measures the error of the pair on the labeled
data, skips the learner when the previous error bound does not strictly
decrease, builds the agreement candidates, applies the first-use value of
l, the candidate-count gate, and the two acceptance branches including the
randomized subsample. -/
def tri_learner [DecidableEq C] (predict_j predict_k : α → C)
    (X_label : List α) (y_label : List C) (X_unlabel : List α)
    (ePrev : ℚ) (lPrev : Int) (epsilon : ℚ) (g : Nat) : TriLearnerResult α C :=
  let y1 := X_label.map predict_j
  let y2 := X_label.map predict_k
  let newE := measure_error y1 y2 y_label epsilon
  if ePrev ≤ newE then ⟨false, [], [], newE, lPrev, g⟩
  else
    let y_p := X_unlabel.map predict_j
    let y_k := X_unlabel.map predict_k
    let validx := (y_p.zip y_k).map (fun q => decide (q.1 = q.2))
    let L := maskSelect X_unlabel validx
    let Ly := maskSelect y_p validx
    let l := if lPrev = 0
      then ⌊safe_division newE (ePrev - newE) epsilon + 1⌋ else lPrev
    if (L.length : Int) ≤ l then ⟨false, [], [], newE, l, g⟩
    else if newE * (L.length : ℚ) < ePrev * (l : ℚ) then ⟨true, L, Ly, newE, l, g⟩
    else if (l : ℚ) > safe_division newE (ePrev - newE) epsilon then
      let s := (⌈safe_division (ePrev * (l : ℚ)) newE epsilon - 1⌉).toNat
      let rg := rng_next g
      let keepIdx := ((List.range L.length).rotate rg.1).take s
      ⟨true, listSelect L keepIdx, listSelect Ly keepIdx, newE, l, rg.2⟩
    else ⟨false, [], [], newE, l, g⟩

/-- The indices of the other two learners (TriTraining._another_hs). -/
def tri_others (i : Fin 3) : Fin 3 × Fin 3 :=
  if i = 0 then (1, 2) else if i = 1 then (0, 2) else (0, 1)

/-- State of the TriTraining.fit outer loop: the three hypotheses, the
error bounds e_, the safe-update sizes l_ and the generator state. -/
structure TriRunState (α C H : Type) where
  hyps : Fin 3 → H
  e_ : Fin 3 → ℚ
  l_ : Fin 3 → Int
  g : Nat

/-- One full TriTraining round (lines 1244-1290): the three decisions are
computed from the pre-round hypotheses with the generator threaded in
index order, then the accepted learners are refit on labeled plus
candidates and their bookkeeping updated. -/
def tri_round [DecidableEq C] (fit : List α → List C → H) (predict : H → α → C)
    (X_label : List α) (y_label : List C) (X_unlabel : List α) (epsilon : ℚ)
    (s : TriRunState α C H) : TriRunState α C H × Bool :=
  let dec := fun (i : Fin 3) (g : Nat) =>
    let jk := tri_others i
    tri_learner (predict (s.hyps jk.1)) (predict (s.hyps jk.2))
      X_label y_label X_unlabel (s.e_ i) (s.l_ i) epsilon g
  let r0 := dec 0 s.g
  let r1 := dec 1 r0.g
  let r2 := dec 2 r1.g
  let res := fun (i : Fin 3) => if i = 0 then r0 else if i = 1 then r1 else r2
  let hyps2 := fun (i : Fin 3) =>
    if (res i).update then fit (X_label ++ (res i).L) (y_label ++ (res i).Ly)
    else s.hyps i
  let e2 := fun (i : Fin 3) => if (res i).update then (res i).e else s.e_ i
  let l2 := fun (i : Fin 3) => if (res i).update then ((res i).L.length : Int) else (res i).l
  (⟨hyps2, e2, l2, r2.g⟩, (res 0).update || (res 1).update || (res 2).update)

/-- The while something_has_changed loop of TriTraining.fit with a fuel
bound. -/
def tri_fit_loop [DecidableEq C] (fit : List α → List C → H) (predict : H → α → C)
    (X_label : List α) (y_label : List C) (X_unlabel : List α) (epsilon : ℚ) :
    Nat → TriRunState α C H → TriRunState α C H
  | 0, s => s
  | fuel+1, s =>
    let step := tri_round fit predict X_label y_label X_unlabel epsilon s
    if step.2 then tri_fit_loop fit predict X_label y_label X_unlabel epsilon fuel step.1
    else step.1

/-- Bootstrap draw of n positions below len from the generator stream, the
model of resample(..., replace=True, n_samples=n). -/
def draw_indices (g : Nat) (n : Nat) (len : Nat) : List Nat × Nat :=
  (List.range n).foldl (fun acc _ =>
    let rg := rng_next acc.2
    (acc.1 ++ [rg.1 % len], rg.2)) (([] : List Nat), g)

/-- First occurrence of each class in the labeled data (lines 1214-1224),
prepended to every bootstrap sample so the class list is preserved. -/
def first_instances [DecidableEq C] (X_label : List α) (y_label : List C) :
    List α × List C :=
  (X_label.zip y_label).foldl
    (fun acc p => if p.2 ∈ acc.2 then acc else (acc.1 ++ [p.1], acc.2 ++ [p.2]))
    (([] : List α), ([] : List C))

/-- A full TriTraining.fit run (lines 1193-1296) as a function of the seed:
bootstrap-fit the three hypotheses from the seeded stream, then run the
round loop. -/
def tri_fit_run [DecidableEq C] (fit : List α → List C → H) (predict : H → α → C)
    (X_label : List α) (y_label : List C) (X_unlabel : List α) (epsilon : ℚ)
    (n_samples : Nat) (fuel : Nat) (seed : Nat) : TriRunState α C H :=
  let fi := first_instances X_label y_label
  let boot := fun (g : Nat) =>
    let d := draw_indices g n_samples X_label.length
    (fit (fi.1 ++ listSelect X_label d.1) (fi.2 ++ listSelect y_label d.1), d.2)
  let b0 := boot seed
  let b1 := boot b0.2
  let b2 := boot b1.2
  tri_fit_loop fit predict X_label y_label X_unlabel epsilon fuel
    ⟨fun i => if i = 0 then b0.1 else if i = 1 then b1.1 else b2.1,
     fun _ => 1/2, fun _ => 0, b2.2⟩

/-- Model of the per-iteration draw of Setred.fit (line 102): sklearn
resample(X_unlabel, replace=False, n_samples=pool) raises ValueError when
more samples are requested than remain; otherwise the drawn positions are
a prefix of the shuffled position order perm. -/
def setred_draw (pool : Nat) (perm : List Nat) (xs : List α) : Option (List Nat) :=
  if pool ≤ xs.length then some (perm.take pool) else none

/-- A full Setred.fit iteration loop (lines 101-158) as a function of the
seed: each iteration draws the sample positions and the acceptance-test
randomness from the seeded stream, then applies the iteration body; it
returns the final state together with the sequence of accepted candidate
rows of every iteration. -/
def setred_run (k pool : Nat) (conf : α → ℚ) (cls : α → C)
    (test : Nat → Nat → Bool) :
    Nat → Nat → SetredState α C → Except PyError (SetredState α C × List (List α))
  | 0, _, s => .ok (s, [])
  | iters+1, g, s =>
    let rg := rng_next g
    let perm := (List.range s.X_unlabel.length).rotate rg.1
    match setred_draw pool perm s.X_unlabel with
    | none => .error .valueError
    | some sampleIdx =>
      let rg2 := rng_next rg.2
      let predictions := (listSelect s.X_unlabel sampleIdx).map conf
      let nCand := ((argsort predictions).drop (predictions.length - k)).length
      let to_add := (List.range nCand).map (test rg2.1)
      let s2 := setred_step k conf cls sampleIdx to_add s
      let accepted := s2.X_label.drop s.X_label.length
      match setred_run k pool conf cls test iters rg2.2 s2 with
      | .error e => .error e
      | .ok pr => .ok (pr.1, accepted :: pr.2)

/-- Quality value q = n * (1 - 2 e / n)^2 of the DemocraticCoLearning
acceptance gate (lines 286-291), at set size n and error estimate e. -/
def demo_q (n : Nat) (e : ℚ) : ℚ := (n : ℚ) * (1 - 2 * (e / (n : ℚ)))^2

/-- Per-learner state of DemocraticCoLearning.fit: the growing labeled set
L[i] with its labels, the already-added mask L_added[i] over the unlabeled
pool, and the cumulative error e[i]. -/
structure DemoLearnerState (α C : Type) where
  L : List α
  Ly : List C
  added : List Bool
  e : ℚ
deriving DecidableEq

/-- What one DemocraticCoLearning round proposes for one learner: the
shared error factor e_factor (from the new confidence intervals, line
279), the candidate mask candidates_bool[i] over the unlabeled pool, and
the proposed instances L_[i] with their ponderate labels Ly_[i]. -/
structure DemoProposal (α C : Type) where
  e_factor : ℚ
  mask : List Bool
  newL : List α
  newLy : List C
deriving DecidableEq

/-- The acceptance gate for one learner in one DemocraticCoLearning.fit
round (lines 283-305): with a nonempty proposal, compute qi and the
prospective quality over the enlarged set; only when the quality strictly
improves are the instances appended, the candidate mask merged into
L_added[i], and the error incremented; otherwise the learner state is
unchanged. -/
def demo_learner_round (pr : DemoProposal α C) (st : DemoLearnerState α C) :
    DemoLearnerState α C × Bool :=
  if 0 < pr.newL.length then
    let e_i := pr.e_factor * (pr.newL.length : ℚ)
    if demo_q (st.L.length + pr.newL.length) (st.e + e_i) ≤ demo_q st.L.length st.e
    then (st, false)
    else ({ L := st.L ++ pr.newL, Ly := st.Ly ++ pr.newLy,
            added := List.zipWith (fun a b => a || b) st.added pr.mask,
            e := st.e + e_i }, true)
  else (st, false)

/-- One full DemocraticCoLearning round over all learners: the per-learner
gate applied to the proposals of the round; the Boolean records whether any
learner changed. -/
def demo_round (props : List (DemoProposal α C))
    (sts : List (DemoLearnerState α C)) :
    List (DemoLearnerState α C) × Bool :=
  let results := List.zipWith (fun st pr => demo_learner_round pr st) sts props
  (results.map Prod.fst, (results.map Prod.snd).any id)

/-- Python subscript save_dict[log_name] (line 309): subscripting the None
default raises TypeError, and a missing key raises KeyError. -/
def dict_getitem (d : Option (List (String × List Nat))) (k : String) :
    Except PyError (List Nat) :=
  match d with
  | none => .error .typeError
  | some entries =>
    match entries.find? (fun p => decide (p.1 = k)) with
    | some p => .ok p.2
    | none => .error .keyError

/-- Model of save_dict[log_name].append(iteration_dict), recording the
iteration number under the key. -/
def dict_append (entries : List (String × List Nat)) (k : String) (it : Nat) :
    List (String × List Nat) :=
  entries.map (fun p => if p.1 = k then (p.1, p.2 ++ [it]) else p)

/-- The outer while-changed loop of DemocraticCoLearning.fit (lines
199-309) with the candidate computation of each round abstracted as
`propose` and a fuel bound: every round body ends by appending the
iteration record to save_dict[log_name]. -/
def demo_fit_loop (save_dict : Option (List (String × List Nat)))
    (log_name : String) (propose : Nat → List (DemoProposal α C)) :
    Nat → List (DemoLearnerState α C) → Nat →
    Except PyError (List (DemoLearnerState α C) × Nat × List (String × List Nat))
  | 0, sts, it => .ok (sts, it, save_dict.getD [])
  | fuel+1, sts, it =>
    let step := demo_round (propose it) sts
    match dict_getitem save_dict log_name with
    | .error e => .error e
    | .ok _ =>
      let sd2 := dict_append (save_dict.getD []) log_name it
      if step.2 then demo_fit_loop (some sd2) log_name propose fuel step.1 (it+1)
      else .ok (step.1, it+1, sd2)

/-- Attribute values of the Python sys module that the embedded code can
observe. -/
inductive SysAttr
  | floatInfo
  | otherAttr
deriving DecidableEq

/-- Attribute table of the Python sys module: the names the interpreter
resolves on it; any other name raises AttributeError.  There is no
attribute named sys on the sys module itself. -/
def sys_module_getattr (name : String) : Except PyError SysAttr :=
  if name = "float_info" then .ok .floatInfo
  else if name = "argv" ∨ name = "path" ∨ name = "modules" ∨ name = "version"
      ∨ name = "maxsize" ∨ name = "stderr" ∨ name = "stdout" ∨ name = "platform"
  then .ok .otherAttr
  else .error .attributeError

/-- Constructor arguments of TriTraining.__init__ other than the estimator. -/
structure TriTrainingInitArgs where
  n_samples : Option Nat
  random_state : Option Nat
  n_jobs : Option Nat

/-- Attributes a successfully constructed TriTraining instance would hold. -/
structure TriTrainingObj where
  n_samples : Option Nat
  N_LEARNER : Nat
  epsilon : ℚ
  random_state : Option Nat

/-- TriTraining.__init__ (lines 1090-1118): after storing base_estimator
and n_samples and setting _N_LEARNER = 3, the constructor evaluates
sys.sys.float_info.epsilon, whose first step resolves the attribute sys on
the sys module; only on success would the remaining assignments run. -/
def TriTraining_init (args : TriTrainingInitArgs) (float_info_epsilon : ℚ) :
    Except PyError TriTrainingObj :=
  let nLearner := 3
  match sys_module_getattr "sys" with
  | .error e => .error e
  | .ok _ => .ok { n_samples := args.n_samples, N_LEARNER := nLearner,
                   epsilon := float_info_epsilon, random_state := args.random_state }

theorem maskSelect_sublist (xs : List α) (m : List Bool) :
    List.Sublist (maskSelect xs m) xs := by
  induction xs generalizing m with
  | nil => cases m <;> simp [maskSelect]
  | cons x xs ih =>
    cases m with
    | nil => simp [maskSelect]
    | cons b m =>
      cases b with
      | false => simpa [maskSelect] using List.Sublist.cons x (ih m)
      | true => simpa [maskSelect] using List.Sublist.cons₂ x (ih m)

theorem maskSelect_length_congr (xs : List α) (ys : List β) (m : List Bool)
    (h : xs.length = ys.length) :
    (maskSelect xs m).length = (maskSelect ys m).length := by
  induction m generalizing xs ys with
  | nil => cases xs <;> cases ys <;> simp [maskSelect]
  | cons b m ih =>
    cases xs with
    | nil => cases ys with
      | nil => rfl
      | cons y ys => simp at h
    | cons x xs =>
      cases ys with
      | nil => simp at h
      | cons y ys =>
        simp only [List.length_cons, Nat.succ.injEq] at h
        cases b <;> simp [maskSelect, ih xs ys h]

theorem maskSelect_mem {xs : List α} {m : List Bool} {a : α}
    (h : a ∈ maskSelect xs m) :
    ∃ k, xs.get? k = some a ∧ m.get? k = some true := by
  induction xs generalizing m with
  | nil => cases m <;> simp [maskSelect] at h
  | cons x xs ih =>
    cases m with
    | nil => simp [maskSelect] at h
    | cons b m =>
      cases b with
      | false =>
        obtain ⟨k, hk1, hk2⟩ := ih (m := m) (by simpa [maskSelect] using h)
        exact ⟨k + 1, by simpa using hk1, by simpa using hk2⟩
      | true =>
        rcases (by simpa [maskSelect] using h : a = x ∨ a ∈ maskSelect xs m) with h | h
        · exact ⟨0, by simp [h], by simp⟩
        · obtain ⟨k, hk1, hk2⟩ := ih (m := m) h
          exact ⟨k + 1, by simpa using hk1, by simpa using hk2⟩

theorem listSelect_length (xs : List α) (idxs : List Nat)
    (h : ∀ i ∈ idxs, i < xs.length) :
    (listSelect xs idxs).length = idxs.length := by
  induction idxs with
  | nil => rfl
  | cons i idxs ih =>
    have hi : i < xs.length := h i (List.mem_cons_self i idxs)
    have hget : xs.get? i = some (xs.get ⟨i, hi⟩) := List.get?_eq_get hi
    simp only [listSelect, List.filterMap_cons] at *
    rw [hget]
    simp [ih (fun j hj => h j (List.mem_cons_of_mem i hj))]
    intro a ha
    have hab := h a (List.mem_cons_of_mem i ha)
    rw [List.getElem?_eq_getElem hab]
    rfl

theorem argsort_perm (vals : List ℚ) :
    List.Perm (argsort vals) (List.range vals.length) :=
  List.perm_insertionSort _ _

theorem argsort_nodup (vals : List ℚ) : (argsort vals).Nodup :=
  ((argsort_perm vals).nodup_iff).mpr (List.nodup_range _)

theorem argsort_mem {vals : List ℚ} {i : Nat} (h : i ∈ argsort vals) :
    i < vals.length := by
  have := (argsort_perm vals).mem_iff.mp h
  simpa using this

theorem nodup_bounded_length_le (l : List Nat) (n : Nat) (hl : l.Nodup)
    (hb : ∀ i ∈ l, i < n) : l.length ≤ n := by
  have hsub : l.toFinset ⊆ Finset.range n := fun i hi =>
    Finset.mem_range.mpr (hb i (List.mem_toFinset.mp hi))
  have := Finset.card_le_card hsub
  simpa [List.toFinset_card_of_nodup hl, Finset.card_range] using this

theorem filter_not_mem_length [DecidableEq β] (l s : List β) (hl : l.Nodup)
    (hs : s.Nodup) (hsub : ∀ x ∈ s, x ∈ l) :
    (l.filter (fun x => decide (¬ x ∈ s))).length = l.length - s.length := by
  have hfl : (l.filter (fun x => decide (¬ x ∈ s))).Nodup := hl.filter _
  have hset : (l.filter (fun x => decide (¬ x ∈ s))).toFinset =
      l.toFinset \ s.toFinset := by
    ext x
    simp [List.mem_filter, Finset.mem_sdiff, decide_eq_true_eq]
  have hss : s.toFinset ⊆ l.toFinset := fun x hx =>
    List.mem_toFinset.mpr (hsub x (List.mem_toFinset.mp hx))
  calc (l.filter (fun x => decide (¬ x ∈ s))).length
      = (l.filter (fun x => decide (¬ x ∈ s))).toFinset.card :=
        (List.toFinset_card_of_nodup hfl).symm
    _ = (l.toFinset \ s.toFinset).card := by rw [hset]
    _ = l.toFinset.card - s.toFinset.card := Finset.card_sdiff hss
    _ = l.length - s.length := by
        rw [List.toFinset_card_of_nodup hl, List.toFinset_card_of_nodup hs]

theorem npDelete_length (xs : List α) (idxs : List Nat) (h1 : idxs.Nodup)
    (h2 : ∀ i ∈ idxs, i < xs.length) :
    (npDelete xs idxs).length = xs.length - idxs.length := by
  unfold npDelete
  rw [listSelect_length]
  · rw [filter_not_mem_length (List.range xs.length) idxs (List.nodup_range _) h1
      (fun i hi => List.mem_range.mpr (h2 i hi))]
    simp
  · intro i hi
    exact List.mem_range.mp (List.mem_filter.mp hi).1

/-- C1: the claim that the rows removed from the unlabeled pool are exactly
the accepted candidates fails on the code.  With the resample draw
returning the two unlabeled rows in the order [row 1, row 0] and the single
candidate accepted, the accepted candidate row 1 is appended to the labeled
set yet remains in the unlabeled pool, while the never-accepted row 0 is
the one that np.delete removes: the deletion positions indexes[to_add]
refer to the drawn pool U_, not to X_unlabel. -/
theorem setred_C1_failing_eval :
    (setred_step 1 (fun x : ℚ => x) (fun _ => (0 : Nat)) [1, 0] [true]
        ⟨[5], [0], [0, 1]⟩).X_label = [5, 1] ∧
    (setred_step 1 (fun x : ℚ => x) (fun _ => (0 : Nat)) [1, 0] [true]
        ⟨[5], [0], [0, 1]⟩).X_unlabel = [1] ∧
    (1 : ℚ) ∈ (setred_step 1 (fun x : ℚ => x) (fun _ => (0 : Nat)) [1, 0] [true]
        ⟨[5], [0], [0, 1]⟩).X_unlabel := by
  decide

/-- C3: the claim that each incremental Rasco addition is the
highest-confidence instance predicted as the class and receives the class
it is predicted as fails on the code.  With instance 10 predicted as class
0 at confidence 9 and instance 20 predicted as class 1 at confidence 6, the
iteration adds instance 20 first with pseudo-label 0 and instance 10 with
pseudo-label 1, although cls 20 = 1 and cls 10 = 0: the boolean mask
pseudoy == class_ is applied to positions of the argsort array instead of
to the instances it stores. -/
theorem rasco_C3_failing_eval :
    (rasco_step [0, 1] (fun x : Nat => if x = 10 then (9 : ℚ) else 6)
        (fun x : Nat => if x = 10 then (0 : Nat) else 1) ⟨[], [], [10, 20]⟩).X_label
      = [20, 10] ∧
    (rasco_step [0, 1] (fun x : Nat => if x = 10 then (9 : ℚ) else 6)
        (fun x : Nat => if x = 10 then (0 : Nat) else 1) ⟨[], [], [10, 20]⟩).y_label
      = [0, 1] ∧
    (fun x : Nat => if x = 10 then (0 : Nat) else 1) 20 = 1 ∧
    (fun x : Nat => if x = 10 then (0 : Nat) else 1) 10 = 0 := by
  decide

/-- C4: the claim that every accepted index leaves the active pool U_ and
that U_ is refilled by the removed count fails on the code.  With active
pool U_ = [5, 7], reserve U = [9] and the first classifier accepting pool
position 0 (global index 5), the accepted index 5 is appended to L yet
stays in U_, no element is removed, and one element is still popped from U,
leaving U_ = [5, 7, 9]: the filter tests pool values against the position
lists p and n. -/
theorem co_training_C4_failing_eval :
    (co_training_update [0] [] ⟨List.replicate 10 (-1), [], [9], [5, 7]⟩).U_
      = [5, 7, 9] ∧
    (co_training_update [0] [] ⟨List.replicate 10 (-1), [], [9], [5, 7]⟩).L
      = [5] ∧
    5 ∈ (co_training_update [0] [] ⟨List.replicate 10 (-1), [], [9], [5, 7]⟩).U_ := by
  decide

/-- C7 counterexample: with one unlabeled row remaining and a requested
pool of two, the Setred draw fails with ValueError (returns none) instead
of clamping to the available count as the claim states. -/
theorem setred_C7_counterexample :
    setred_draw 2 [0] [(5 : ℚ)] = none := by decide

/-- C9: every TriTraining.__init__ call, for every combination of
arguments, raises AttributeError, because the constructor evaluates
sys.sys.float_info.epsilon and the sys module has no attribute named sys;
hence no TriTraining instance can be constructed. -/
theorem tri_training_init_raises (args : TriTrainingInitArgs)
    (float_info_epsilon : ℚ) :
    TriTraining_init args float_info_epsilon
      = Except.error PyError.attributeError := rfl

/-- C10: with the default save_dict=None, every DemocraticCoLearning.fit
run raises TypeError at the end of the first outer round when it
subscripts self.save_dict[self.log_name] on None, whatever the rounds
would propose; and when a save_dict holding the log_name key is supplied
(which __init__ guarantees for a caller-provided dictionary), that
subscript succeeds. -/
theorem democratic_save_dict_crash {α C : Type} (log_name : String)
    (propose : Nat → List (DemoProposal α C))
    (sts : List (DemoLearnerState α C)) (fuel : Nat) :
    demo_fit_loop none log_name propose (fuel + 1) sts 0
      = Except.error PyError.typeError ∧
    dict_getitem (some [(log_name, [])]) log_name = Except.ok [] := by
  refine ⟨?_, ?_⟩
  · simp [demo_fit_loop, dict_getitem]
  · simp [dict_getitem, List.find?]

theorem getLast?_mem_self {l : List α} {a : α} (h : l.getLast? = some a) :
    a ∈ l := by
  obtain ⟨hne, heq⟩ := List.mem_getLast?_eq_getLast (x := a) h
  rw [heq]
  exact List.getLast_mem hne

theorem listSelect_length_le (xs : List α) (idxs : List Nat) :
    (listSelect xs idxs).length ≤ idxs.length :=
  List.length_filterMap_le _ _

theorem setred_step_counts {α C : Type} (k : Nat) (conf : α → ℚ) (cls : α → C)
    (sampleIdx : List Nat) (to_add : List Bool) (s : SetredState α C)
    (hnd : sampleIdx.Nodup) (hb : ∀ i ∈ sampleIdx, i < s.X_unlabel.length) :
    s.X_label.length ≤ (setred_step k conf cls sampleIdx to_add s).X_label.length ∧
    (setred_step k conf cls sampleIdx to_add s).X_unlabel.length ≤ s.X_unlabel.length ∧
    (setred_step k conf cls sampleIdx to_add s).X_label.length - s.X_label.length
      = s.X_unlabel.length - (setred_step k conf cls sampleIdx to_add s).X_unlabel.length ∧
    (setred_step k conf cls sampleIdx to_add s).y_label.length - s.y_label.length
      = (setred_step k conf cls sampleIdx to_add s).X_label.length - s.X_label.length := by
  set U_ := listSelect s.X_unlabel sampleIdx with hU
  set predictions := U_.map conf with hpred
  set indexes := (argsort predictions).drop (predictions.length - k) with hidx
  set L_ := listSelect U_ indexes with hL
  set to_delete := maskSelect indexes to_add with htd
  have hstep : setred_step k conf cls sampleIdx to_add s =
      { X_label := s.X_label ++ maskSelect L_ to_add
        y_label := s.y_label ++ maskSelect (L_.map cls) to_add
        X_unlabel := npDelete s.X_unlabel to_delete } := rfl
  have hUlen : U_.length = sampleIdx.length := listSelect_length _ _ hb
  have hUle : U_.length ≤ s.X_unlabel.length := by
    rw [hUlen]
    exact nodup_bounded_length_le _ _ hnd hb
  have hplen : predictions.length = U_.length := List.length_map _ _
  have hidx_sub : List.Sublist indexes (argsort predictions) := List.drop_sublist _ _
  have hidx_nd : indexes.Nodup := hidx_sub.nodup (argsort_nodup _)
  have hidx_b : ∀ i ∈ indexes, i < U_.length := by
    intro i hi
    rw [← hplen]
    exact argsort_mem (hidx_sub.subset hi)
  have hLlen : L_.length = indexes.length := listSelect_length _ _ hidx_b
  have htd_sub : List.Sublist to_delete indexes := maskSelect_sublist _ _
  have htd_nd : to_delete.Nodup := htd_sub.nodup hidx_nd
  have htd_b : ∀ i ∈ to_delete, i < s.X_unlabel.length := fun i hi =>
    lt_of_lt_of_le (hidx_b i (htd_sub.subset hi)) hUle
  have htd_le : to_delete.length ≤ s.X_unlabel.length :=
    nodup_bounded_length_le _ _ htd_nd htd_b
  have hmask1 : (maskSelect L_ to_add).length = to_delete.length := by
    rw [htd]
    exact maskSelect_length_congr _ _ _ hLlen
  have hmask2 : (maskSelect (L_.map cls) to_add).length
      = (maskSelect L_ to_add).length :=
    maskSelect_length_congr _ _ _ (List.length_map _ _)
  have hnp : (npDelete s.X_unlabel to_delete).length
      = s.X_unlabel.length - to_delete.length := npDelete_length _ _ htd_nd htd_b
  rw [hstep]
  simp only [List.length_append, hmask1, hmask2, hnp]
  omega

theorem rasco_pick_lt [DecidableEq C] {predictions : List ℚ} {pseudoy : List C}
    {c : C} {j : Nat} (h : rasco_pick predictions pseudoy c = some j) :
    j < predictions.length :=
  argsort_mem ((maskSelect_sublist _ _).subset (getLast?_mem_self h))

theorem rasco_pick_inj [DecidableEq C] {predictions : List ℚ} {pseudoy : List C}
    {c c2 : C} {j j2 : Nat} (hcc : ¬ c = c2)
    (h1 : rasco_pick predictions pseudoy c = some j)
    (h2 : rasco_pick predictions pseudoy c2 = some j2) : ¬ j = j2 := by
  intro hj
  subst hj
  obtain ⟨k1, hk1, hm1⟩ := maskSelect_mem (getLast?_mem_self h1)
  obtain ⟨k2, hk2, hm2⟩ := maskSelect_mem (getLast?_mem_self h2)
  rw [List.get?_map] at hm1 hm2
  obtain ⟨p1, hp1⟩ : ∃ p, pseudoy.get? k1 = some p := by
    cases hc : pseudoy.get? k1 with
    | none => rw [hc] at hm1; simp at hm1
    | some p => exact ⟨p, rfl⟩
  obtain ⟨p2, hp2⟩ : ∃ p, pseudoy.get? k2 = some p := by
    cases hc : pseudoy.get? k2 with
    | none => rw [hc] at hm2; simp at hm2
    | some p => exact ⟨p, rfl⟩
  rw [hp1] at hm1
  rw [hp2] at hm2
  simp only [Option.map_some', Option.some.injEq, decide_eq_true_eq] at hm1 hm2
  have hlt1 : k1 < (argsort predictions).length := (List.get?_eq_some.mp hk1).1
  have hkk : k1 = k2 := by
    apply List.getElem?_inj hlt1 (argsort_nodup _)
    rw [← List.get?_eq_getElem?, ← List.get?_eq_getElem?, hk1, hk2]
  rw [hkk, hp2] at hp1
  have hp21 : p2 = p1 := Option.some.inj hp1
  exact hcc ((hm1.symm.trans hp21.symm).trans hm2)

theorem rasco_incremental_fst_nodup [DecidableEq C] (classes : List C)
    (predictions : List ℚ) (pseudoy : List C) (hnd : classes.Nodup) :
    ((rasco_incremental classes predictions pseudoy).map Prod.fst).Nodup := by
  have h2 : List.Pairwise (fun a b : Nat × C => ¬ a.1 = b.1)
      (rasco_incremental classes predictions pseudoy) := by
    unfold rasco_incremental
    rw [List.pairwise_filterMap]
    refine hnd.imp ?_
    intro c c2 hcc b hb b2 hb2
    cases hpc : rasco_pick predictions pseudoy c with
    | none => rw [hpc] at hb; simp at hb
    | some j =>
      cases hpc2 : rasco_pick predictions pseudoy c2 with
      | none => rw [hpc2] at hb2; simp at hb2
      | some j2 =>
        rw [hpc] at hb
        rw [hpc2] at hb2
        simp only [Option.map_some', Option.mem_def, Option.some.injEq] at hb hb2
        rw [← hb, ← hb2]
        exact rasco_pick_inj hcc hpc hpc2
  exact List.pairwise_map.mpr h2

theorem rasco_incremental_fst_lt [DecidableEq C] {classes : List C}
    {predictions : List ℚ} {pseudoy : List C} {j : Nat}
    (h : j ∈ (rasco_incremental classes predictions pseudoy).map Prod.fst) :
    j < predictions.length := by
  obtain ⟨b, hb, hbj⟩ := List.mem_map.mp h
  obtain ⟨c, _, hfc⟩ := List.mem_filterMap.mp hb
  cases hpc : rasco_pick predictions pseudoy c with
  | none => rw [hpc] at hfc; simp at hfc
  | some j2 =>
    rw [hpc] at hfc
    simp only [Option.map_some', Option.some.injEq] at hfc
    have : j2 = j := by rw [← hbj, ← hfc]
    exact this ▸ rasco_pick_lt hpc

theorem rasco_step_counts {α C : Type} [DecidableEq C] (classes : List C)
    (conf : α → ℚ) (cls : α → C) (s : RascoState α C) (hnd : classes.Nodup) :
    s.X_label.length ≤ (rasco_step classes conf cls s).X_label.length ∧
    (rasco_step classes conf cls s).X_unlabel.length ≤ s.X_unlabel.length ∧
    (rasco_step classes conf cls s).X_label.length - s.X_label.length
      = s.X_unlabel.length - (rasco_step classes conf cls s).X_unlabel.length ∧
    (rasco_step classes conf cls s).y_label.length - s.y_label.length
      = (rasco_step classes conf cls s).X_label.length - s.X_label.length := by
  set predictions := s.X_unlabel.map conf with hpred
  set pseudoy := s.X_unlabel.map cls with hps
  set sel := rasco_incremental classes predictions pseudoy with hsel
  set Lj := sel.map Prod.fst with hLj
  have hstep : rasco_step classes conf cls s =
      { X_label := s.X_label ++ listSelect s.X_unlabel Lj
        y_label := s.y_label ++ sel.map Prod.snd
        X_unlabel := npDelete s.X_unlabel Lj } := rfl
  have hplen : predictions.length = s.X_unlabel.length := List.length_map _ _
  have hnodup : Lj.Nodup := rasco_incremental_fst_nodup _ _ _ hnd
  have hbound : ∀ j ∈ Lj, j < s.X_unlabel.length := by
    intro j hj
    rw [← hplen]
    exact rasco_incremental_fst_lt hj
  have hLsel : (listSelect s.X_unlabel Lj).length = Lj.length :=
    listSelect_length _ _ hbound
  have hLjlen : Lj.length = sel.length := List.length_map _ _
  have hle : Lj.length ≤ s.X_unlabel.length :=
    nodup_bounded_length_le _ _ hnodup hbound
  have hnp : (npDelete s.X_unlabel Lj).length = s.X_unlabel.length - Lj.length :=
    npDelete_length _ _ hnodup hbound
  rw [hstep]
  simp only [List.length_append, hLsel, hnp, List.length_map]
  omega

theorem co_committee_step_counts {α C : Type} (poolsize : Nat) (X_unlabel : List α)
    (class_predicted : List C) (added : List Bool) (s : CommitteeState α C)
    (hperm : s.permutation.Nodup)
    (hpb : ∀ i ∈ s.permutation, i < X_unlabel.length)
    (hcp : class_predicted.length = (s.permutation.take poolsize).length) :
    s.X_label.length
      ≤ (co_committee_step poolsize X_unlabel class_predicted added s).X_label.length ∧
    (co_committee_step poolsize X_unlabel class_predicted added s).permutation.length
      ≤ s.permutation.length ∧
    (co_committee_step poolsize X_unlabel class_predicted added s).X_label.length
        - s.X_label.length
      = s.permutation.length
        - (co_committee_step poolsize X_unlabel class_predicted added s).permutation.length ∧
    (co_committee_step poolsize X_unlabel class_predicted added s).y_label.length
        - s.y_label.length
      = (co_committee_step poolsize X_unlabel class_predicted added s).X_label.length
        - s.X_label.length := by
  set window := s.permutation.take poolsize with hw
  set index := maskSelect window added with hidx
  have hstep : co_committee_step poolsize X_unlabel class_predicted added s =
      { X_label := s.X_label ++ listSelect X_unlabel index
        y_label := s.y_label ++ maskSelect class_predicted added
        permutation := s.permutation.filter (fun x => decide (¬ x ∈ index)) } := rfl
  have hw_sub : List.Sublist window s.permutation := List.take_sublist _ _
  have hidx_sub : List.Sublist index window := maskSelect_sublist _ _
  have hidx_perm : List.Sublist index s.permutation := hidx_sub.trans hw_sub
  have hidx_nd : index.Nodup := hidx_perm.nodup hperm
  have hidx_b : ∀ i ∈ index, i < X_unlabel.length := fun i hi =>
    hpb i (hidx_perm.subset hi)
  have hsel : (listSelect X_unlabel index).length = index.length :=
    listSelect_length _ _ hidx_b
  have hmask : (maskSelect class_predicted added).length = index.length := by
    rw [hidx]
    exact maskSelect_length_congr _ _ _ hcp
  have hfil : (s.permutation.filter (fun x => decide (¬ x ∈ index))).length
      = s.permutation.length - index.length :=
    filter_not_mem_length _ _ hperm hidx_nd (fun x hx => hidx_perm.subset hx)
  have hle : index.length ≤ s.permutation.length := hidx_perm.length_le
  rw [hstep]
  simp only [List.length_append, hsel, hmask, hfil]
  omega

/-- C5 counterexample: the monotonic growth invariant as claimed ranges
over every engine, but a CoTraining iteration falsifies it.  At the
concrete input with active pool U_ = [5, 7] and reserve U = [9], the
iteration accepts one instance (L grows from zero to one element), yet the
combined unlabeled pool U_ plus U still holds three indices afterwards: the
accepted index is not removed from U_ while an element is popped from U,
so the pool shrinks by zero although the engine removes rather than
resamples. -/
theorem growth_invariant_counterexample :
    (co_training_update [0] [] ⟨List.replicate 10 (-1), [], [9], [5, 7]⟩).L.length
      = ([] : List Nat).length + 1 ∧
    (co_training_update [0] [] ⟨List.replicate 10 (-1), [], [9], [5, 7]⟩).U_.length
        + (co_training_update [0] [] ⟨List.replicate 10 (-1), [], [9], [5, 7]⟩).U.length
      = ([5, 7] : List Nat).length + ([9] : List Nat).length := by
  decide

/-- C5 amended: monotonic growth invariant for the cited engines.  For a
Setred iteration (under the resample well-formedness its draw guarantees),
an incremental Rasco iteration and a CoTrainingByCommittee iteration, the
labeled set never shrinks, the engine's unlabeled pool never grows, the
labeled growth equals the pool shrinkage (the accepted count), and the
label list grows by the same count as the feature list; CoTraining is
excluded, as its pool bookkeeping violates the invariant. -/
theorem growth_invariant {α C : Type} [DecidableEq C]
    (k : Nat) (conf : α → ℚ) (cls : α → C) (sampleIdx : List Nat)
    (to_add : List Bool) (s : SetredState α C)
    (hnd : sampleIdx.Nodup) (hb : ∀ i ∈ sampleIdx, i < s.X_unlabel.length)
    (classes : List C) (rconf : α → ℚ) (rcls : α → C) (r : RascoState α C)
    (hcl : classes.Nodup)
    (poolsize : Nat) (X_unlabel : List α) (class_predicted : List C)
    (added : List Bool) (cs : CommitteeState α C)
    (hperm : cs.permutation.Nodup)
    (hpb : ∀ i ∈ cs.permutation, i < X_unlabel.length)
    (hcp : class_predicted.length = (cs.permutation.take poolsize).length) :
    (s.X_label.length ≤ (setred_step k conf cls sampleIdx to_add s).X_label.length ∧
     (setred_step k conf cls sampleIdx to_add s).X_unlabel.length ≤ s.X_unlabel.length ∧
     (setred_step k conf cls sampleIdx to_add s).X_label.length - s.X_label.length
       = s.X_unlabel.length - (setred_step k conf cls sampleIdx to_add s).X_unlabel.length ∧
     (setred_step k conf cls sampleIdx to_add s).y_label.length - s.y_label.length
       = (setred_step k conf cls sampleIdx to_add s).X_label.length - s.X_label.length) ∧
    (r.X_label.length ≤ (rasco_step classes rconf rcls r).X_label.length ∧
     (rasco_step classes rconf rcls r).X_unlabel.length ≤ r.X_unlabel.length ∧
     (rasco_step classes rconf rcls r).X_label.length - r.X_label.length
       = r.X_unlabel.length - (rasco_step classes rconf rcls r).X_unlabel.length ∧
     (rasco_step classes rconf rcls r).y_label.length - r.y_label.length
       = (rasco_step classes rconf rcls r).X_label.length - r.X_label.length) ∧
    (cs.X_label.length
       ≤ (co_committee_step poolsize X_unlabel class_predicted added cs).X_label.length ∧
     (co_committee_step poolsize X_unlabel class_predicted added cs).permutation.length
       ≤ cs.permutation.length ∧
     (co_committee_step poolsize X_unlabel class_predicted added cs).X_label.length
         - cs.X_label.length
       = cs.permutation.length
         - (co_committee_step poolsize X_unlabel class_predicted added cs).permutation.length ∧
     (co_committee_step poolsize X_unlabel class_predicted added cs).y_label.length
         - cs.y_label.length
       = (co_committee_step poolsize X_unlabel class_predicted added cs).X_label.length
         - cs.X_label.length) :=
  ⟨setred_step_counts k conf cls sampleIdx to_add s hnd hb,
   rasco_step_counts classes rconf rcls r hcl,
   co_committee_step_counts poolsize X_unlabel class_predicted added cs hperm hpb hcp⟩

/-- Witness for the growth invariant at concrete inputs: one Setred
iteration accepting one candidate from a one-row pool, one Rasco iteration,
one committee iteration. -/
theorem growth_invariant_witness :
    (([] : List Nat).length
        ≤ (setred_step 1 (fun _ : Nat => (1 : ℚ)) (fun _ => (0 : Nat)) [0] [true]
            ⟨[], [], [7]⟩).X_label.length ∧
     (setred_step 1 (fun _ : Nat => (1 : ℚ)) (fun _ => (0 : Nat)) [0] [true]
            ⟨[], [], [7]⟩).X_unlabel.length ≤ ([7] : List Nat).length ∧
     (setred_step 1 (fun _ : Nat => (1 : ℚ)) (fun _ => (0 : Nat)) [0] [true]
            ⟨[], [], [7]⟩).X_label.length - ([] : List Nat).length
       = ([7] : List Nat).length
         - (setred_step 1 (fun _ : Nat => (1 : ℚ)) (fun _ => (0 : Nat)) [0] [true]
            ⟨[], [], [7]⟩).X_unlabel.length ∧
     (setred_step 1 (fun _ : Nat => (1 : ℚ)) (fun _ => (0 : Nat)) [0] [true]
            ⟨[], [], [7]⟩).y_label.length - ([] : List Nat).length
       = (setred_step 1 (fun _ : Nat => (1 : ℚ)) (fun _ => (0 : Nat)) [0] [true]
            ⟨[], [], [7]⟩).X_label.length - ([] : List Nat).length) ∧
    (([] : List Nat).length
        ≤ (rasco_step [0] (fun _ : Nat => (1 : ℚ)) (fun _ => (0 : Nat))
            ⟨[], [], [7]⟩).X_label.length ∧
     (rasco_step [0] (fun _ : Nat => (1 : ℚ)) (fun _ => (0 : Nat))
            ⟨[], [], [7]⟩).X_unlabel.length ≤ ([7] : List Nat).length ∧
     (rasco_step [0] (fun _ : Nat => (1 : ℚ)) (fun _ => (0 : Nat))
            ⟨[], [], [7]⟩).X_label.length - ([] : List Nat).length
       = ([7] : List Nat).length
         - (rasco_step [0] (fun _ : Nat => (1 : ℚ)) (fun _ => (0 : Nat))
            ⟨[], [], [7]⟩).X_unlabel.length ∧
     (rasco_step [0] (fun _ : Nat => (1 : ℚ)) (fun _ => (0 : Nat))
            ⟨[], [], [7]⟩).y_label.length - ([] : List Nat).length
       = (rasco_step [0] (fun _ : Nat => (1 : ℚ)) (fun _ => (0 : Nat))
            ⟨[], [], [7]⟩).X_label.length - ([] : List Nat).length) ∧
    (([] : List Nat).length
        ≤ (co_committee_step 1 [7] [0] [true]
            (⟨[], [], [0]⟩ : CommitteeState Nat Nat)).X_label.length ∧
     (co_committee_step 1 [7] [0] [true]
            (⟨[], [], [0]⟩ : CommitteeState Nat Nat)).permutation.length
       ≤ ([0] : List Nat).length ∧
     (co_committee_step 1 [7] [0] [true]
            (⟨[], [], [0]⟩ : CommitteeState Nat Nat)).X_label.length
         - ([] : List Nat).length
       = ([0] : List Nat).length
         - (co_committee_step 1 [7] [0] [true]
            (⟨[], [], [0]⟩ : CommitteeState Nat Nat)).permutation.length ∧
     (co_committee_step 1 [7] [0] [true]
            (⟨[], [], [0]⟩ : CommitteeState Nat Nat)).y_label.length
         - ([] : List Nat).length
       = (co_committee_step 1 [7] [0] [true]
            (⟨[], [], [0]⟩ : CommitteeState Nat Nat)).X_label.length
         - ([] : List Nat).length) :=
  growth_invariant 1 (fun _ => (1 : ℚ)) (fun _ => (0 : Nat)) [0] [true]
    ⟨[], [], [7]⟩ (by decide) (by decide)
    [0] (fun _ => (1 : ℚ)) (fun _ => (0 : Nat)) ⟨[], [], [7]⟩ (by decide)
    1 [7] [0] [true] ⟨[], [], [0]⟩ (by decide) (by decide) (by decide)

/-- C7 amended: CoTraining clamps its active pool to min(len(U), poolsize)
and a CoTrainingByCommittee iteration consumes at most
min(poolsize, remaining) window instances, but the Setred draw is not
clamped: it succeeds exactly when at least pool unlabeled rows remain and
raises ValueError otherwise. -/
theorem pool_clamp_amended {α C : Type} (poolsize : Nat) (U : List Nat)
    (pool : Nat) (perm : List Nat) (xs : List ℚ) (X_unlabel : List α)
    (class_predicted : List C) (added : List Bool) (s : CommitteeState α C) :
    (co_training_pool_init poolsize U).2.length = min U.length poolsize ∧
    ((setred_draw pool perm xs).isSome ↔ pool ≤ xs.length) ∧
    (co_committee_step poolsize X_unlabel class_predicted added s).X_label.length
      ≤ s.X_label.length + min poolsize s.permutation.length := by
  refine ⟨?_, ?_, ?_⟩
  · simp only [co_training_pool_init, List.length_drop]
    omega
  · unfold setred_draw
    by_cases h : pool ≤ xs.length <;> simp [h]
  · have hstep : co_committee_step poolsize X_unlabel class_predicted added s =
        { X_label := s.X_label
            ++ listSelect X_unlabel (maskSelect (s.permutation.take poolsize) added)
          y_label := s.y_label ++ maskSelect class_predicted added
          permutation := s.permutation.filter
            (fun x => decide (¬ x ∈ maskSelect (s.permutation.take poolsize) added)) } :=
      rfl
    have h1 : (listSelect X_unlabel
        (maskSelect (s.permutation.take poolsize) added)).length
        ≤ (maskSelect (s.permutation.take poolsize) added).length :=
      listSelect_length_le _ _
    have h2 : (maskSelect (s.permutation.take poolsize) added).length
        ≤ (s.permutation.take poolsize).length :=
      (maskSelect_sublist _ _).length_le
    have h3 : (s.permutation.take poolsize).length
        = min poolsize s.permutation.length := List.length_take _ _
    rw [hstep]
    simp only [List.length_append]
    omega

/-- C8: determinism.  The Setred run and the TriTraining run are functions
of the seed and the inputs alone: two runs with equal seeds and identical
inputs produce the identical accepted-candidate sequences, identical final
states, and hypotheses with identical predictions on any held-out sample. -/
theorem fit_determinism {α C H : Type} [DecidableEq C]
    (k pool : Nat) (conf : α → ℚ) (cls : α → C) (test : Nat → Nat → Bool)
    (iters : Nat) (s0 : SetredState α C)
    (fit : List α → List C → H) (predict : H → α → C)
    (X_label : List α) (y_label : List C) (X_unlabel : List α) (epsilon : ℚ)
    (n_samples fuel : Nat) (x : α)
    (seed1 seed2 : Nat) (hseed : seed1 = seed2) :
    setred_run k pool conf cls test iters seed1 s0
      = setred_run k pool conf cls test iters seed2 s0 ∧
    tri_fit_run fit predict X_label y_label X_unlabel epsilon n_samples fuel seed1
      = tri_fit_run fit predict X_label y_label X_unlabel epsilon n_samples fuel seed2 ∧
    (∀ i : Fin 3,
      predict ((tri_fit_run fit predict X_label y_label X_unlabel epsilon
          n_samples fuel seed1).hyps i) x
        = predict ((tri_fit_run fit predict X_label y_label X_unlabel epsilon
          n_samples fuel seed2).hyps i) x) := by
  subst hseed
  exact ⟨rfl, rfl, fun i => rfl⟩

/-- Witness for determinism at a concrete seed and input. -/
theorem fit_determinism_witness :
    setred_run 1 1 (fun _ : Nat => (1 : ℚ)) (fun _ => (0 : Nat)) (fun _ _ => true)
        2 7 ⟨[], [], [3]⟩
      = setred_run 1 1 (fun _ : Nat => (1 : ℚ)) (fun _ => (0 : Nat)) (fun _ _ => true)
        2 7 ⟨[], [], [3]⟩ ∧
    tri_fit_run (fun _ _ => (0 : Nat)) (fun _ (_ : Nat) => (0 : Nat)) [1] [0] [2] 1 1 1 7
      = tri_fit_run (fun _ _ => (0 : Nat)) (fun _ (_ : Nat) => (0 : Nat)) [1] [0] [2] 1 1 1 7 ∧
    (∀ i : Fin 3,
      (fun _ (_ : Nat) => (0 : Nat))
          ((tri_fit_run (fun _ _ => (0 : Nat)) (fun _ (_ : Nat) => (0 : Nat))
            [1] [0] [2] 1 1 1 7).hyps i) 5
        = (fun _ (_ : Nat) => (0 : Nat))
          ((tri_fit_run (fun _ _ => (0 : Nat)) (fun _ (_ : Nat) => (0 : Nat))
            [1] [0] [2] 1 1 1 7).hyps i) 5) :=
  fit_determinism 1 1 (fun _ => (1 : ℚ)) (fun _ => (0 : Nat)) (fun _ _ => true)
    2 ⟨[], [], [3]⟩ (fun _ _ => (0 : Nat)) (fun _ (_ : Nat) => (0 : Nat))
    [1] [0] [2] 1 1 1 5 7 7 rfl

theorem mem_zip_self {C : Type} {l : List C} {p : C × C} (hp : p ∈ l.zip l) :
    p.1 = p.2 := by
  induction l with
  | nil => simp at hp
  | cons a t ih =>
    rw [List.zip_cons_cons] at hp
    rcases List.mem_cons.mp hp with h | h
    · rw [h]
    · exact ih h

theorem mem_zip_self_zip {C : Type} {l y : List C} {p : (C × C) × C}
    (hp : p ∈ (l.zip l).zip y) :
    p.1.1 = p.1.2 ∧ (p.1.2, p.2) ∈ l.zip y := by
  induction l generalizing y with
  | nil => simp at hp
  | cons a t ih =>
    cases y with
    | nil => simp at hp
    | cons b u =>
      rw [List.zip_cons_cons, List.zip_cons_cons] at hp
      rcases List.mem_cons.mp hp with h | h
      · rw [h]
        exact ⟨rfl, List.mem_cons_self _ _⟩
      · obtain ⟨h1, h2⟩ := ih h
        exact ⟨h1, List.mem_cons_of_mem _ h2⟩

theorem measure_error_all_wrong {C : Type} [DecidableEq C] (y2 y : List C)
    (epsilon : ℚ) (hne : y2 ≠ []) (hlen : y2.length = y.length)
    (hw : ∀ q ∈ y2.zip y, ¬ q.1 = q.2) :
    measure_error y2 y2 y epsilon = 1 := by
  have herr : ((y2.zip y2).zip y).filter
      (fun p => decide (p.1.1 = p.1.2 ∧ ¬ p.1.2 = p.2)) = (y2.zip y2).zip y := by
    rw [List.filter_eq_self]
    intro p hp
    obtain ⟨h1, h2⟩ := mem_zip_self_zip hp
    simp [h1, hw _ h2]
  have hco : (y2.zip y2).filter (fun p => decide (p.1 = p.2)) = y2.zip y2 := by
    rw [List.filter_eq_self]
    intro p hp
    simp [mem_zip_self hp]
  have hn : (y2.length : ℚ) ≠ 0 :=
    Nat.cast_ne_zero.mpr (List.length_pos.mpr hne).ne'
  simp only [measure_error, safe_division, herr, hco]
  have hlen2 : ((y2.zip y2).zip y).length = y2.length := by
    simp [List.length_zip, hlen]
  have hlenco : (y2.zip y2).length = y2.length := by simp [List.length_zip]
  rw [hlen2, hlenco, if_neg hn]
  exact div_self hn

/-- C2: TriTraining._measure_error returns the agreeing-and-wrong count
divided by the agreement count whenever the two hypotheses agree at least
once; in the scenario where the two other learners agree and are both
wrong on every labeled instance the measured error is 1, which the round
gate e_[i] <= e[i] with the initial e_[i] = 0.5 rejects, so the learner is
skipped and no update is accepted. -/
theorem tri_measure_error_spec :
    (∀ (y1 y2 y : List Nat) (epsilon : ℚ),
        0 < ((y1.zip y2).filter (fun p => decide (p.1 = p.2))).length →
        measure_error y1 y2 y epsilon
          = ((((y1.zip y2).zip y).filter
              (fun p => decide (p.1.1 = p.1.2 ∧ ¬ p.1.2 = p.2))).length : ℚ)
            / (((y1.zip y2).filter (fun p => decide (p.1 = p.2))).length : ℚ)) ∧
    (∀ (α : Type) (predict_j predict_k : α → Nat) (X_label : List α)
        (y_label : List Nat) (X_unlabel : List α) (lPrev : Int) (epsilon : ℚ)
        (g : Nat),
        X_label ≠ [] → X_label.length = y_label.length →
        (∀ x ∈ X_label, predict_j x = predict_k x) →
        (∀ q ∈ (X_label.map predict_k).zip y_label, ¬ q.1 = q.2) →
        measure_error (X_label.map predict_j) (X_label.map predict_k)
            y_label epsilon = 1 ∧
        (tri_learner predict_j predict_k X_label y_label X_unlabel
            (1/2) lPrev epsilon g).update = false ∧
        (tri_learner predict_j predict_k X_label y_label X_unlabel
            (1/2) lPrev epsilon g).L = []) := by
  constructor
  · intro y1 y2 y epsilon h
    have hne : ((((y1.zip y2).filter (fun p => decide (p.1 = p.2))).length : ℚ)) ≠ 0 :=
      Nat.cast_ne_zero.mpr h.ne'
    simp only [measure_error, safe_division]
    rw [if_neg hne]
  · intro α predict_j predict_k X_label y_label X_unlabel lPrev epsilon g
      hne hlen hagree hw
    have hmap : X_label.map predict_j = X_label.map predict_k :=
      List.map_congr_left hagree
    have hml : (X_label.map predict_k).length = y_label.length := by
      simp [hlen]
    have hmne : X_label.map predict_k ≠ [] := by simpa using hne
    have hme : measure_error (X_label.map predict_j) (X_label.map predict_k)
        y_label epsilon = 1 := by
      rw [hmap]
      exact measure_error_all_wrong _ _ _ hmne hml hw
    have hTL : tri_learner predict_j predict_k X_label y_label X_unlabel
        (1/2) lPrev epsilon g = ⟨false, [], [], 1, lPrev, g⟩ := by
      simp only [tri_learner, hme]
      rw [if_pos (by norm_num : (1 : ℚ)/2 ≤ 1)]
    exact ⟨hme, by rw [hTL], by rw [hTL]⟩

/-- Witness for the measure-error specification: two length-two prediction
lists that agree everywhere and are wrong everywhere yield ratio 1 and a
skipped learner. -/
theorem tri_measure_error_spec_witness :
    measure_error [0, 0] [0, 0] [1, 1] 1 = 1 ∧
    (tri_learner (fun _ : Nat => (0 : Nat)) (fun _ => (0 : Nat)) [5, 6] [1, 1] []
        (1/2) 0 1 0).update = false ∧
    (tri_learner (fun _ : Nat => (0 : Nat)) (fun _ => (0 : Nat)) [5, 6] [1, 1] []
        (1/2) 0 1 0).L = [] := by
  have h2 := tri_measure_error_spec.2 Nat (fun _ => 0) (fun _ => 0) [5, 6] [1, 1]
    [] 0 1 0 (by decide) (by decide) (by intro x _; rfl) (by decide)
  have h1 := tri_measure_error_spec.1 [0, 0] [0, 0] [1, 1] 1 (by decide)
  refine ⟨?_, h2.2.1, h2.2.2⟩
  rw [h1]
  norm_num

theorem demo_learner_no_accept {α C : Type} (pr : DemoProposal α C)
    (st : DemoLearnerState α C)
    (h : pr.newL = [] ∨ demo_q (st.L.length + pr.newL.length)
        (st.e + pr.e_factor * (pr.newL.length : ℚ)) ≤ demo_q st.L.length st.e) :
    demo_learner_round pr st = (st, false) := by
  rcases h with h | h
  · simp [demo_learner_round, h]
  · simp only [demo_learner_round]
    by_cases h0 : 0 < pr.newL.length
    · rw [if_pos h0, if_pos h]
    · rw [if_neg h0]

theorem demo_round_no_accept {α C : Type} (props : List (DemoProposal α C))
    (sts : List (DemoLearnerState α C)) (hlen : props.length = sts.length)
    (h : ∀ q ∈ sts.zip props, q.2.newL = [] ∨
        demo_q (q.1.L.length + q.2.newL.length)
            (q.1.e + q.2.e_factor * (q.2.newL.length : ℚ))
          ≤ demo_q q.1.L.length q.1.e) :
    demo_round props sts = (sts, false) := by
  induction sts generalizing props with
  | nil =>
    cases props with
    | nil => rfl
    | cons pr prs => simp at hlen
  | cons st sts ih =>
    cases props with
    | nil => simp at hlen
    | cons pr prs =>
      have hhead : demo_learner_round pr st = (st, false) :=
        demo_learner_no_accept _ _
          (h (st, pr) (by rw [List.zip_cons_cons]; exact List.mem_cons_self _ _))
      have htail := ih prs (by simpa using hlen)
        (fun q hq => h q (by
          rw [List.zip_cons_cons]
          exact List.mem_cons_of_mem _ hq))
      have h1 := congrArg Prod.fst htail
      have h2 := congrArg Prod.snd htail
      simp only [demo_round] at h1 h2 ⊢
      rw [List.zipWith_cons_cons]
      simp [hhead, h1, h2]

/-- C6: the Democratic quality gate.  A learner is enlarged only when the
prospective quality strictly exceeds the current quality, in which case
the new instances are appended and the error is incremented; and when in
the first round every learner either has no new instances or fails the
gate, the loop appends exactly one iteration record and returns with every
learner state equal to its initial value. -/
theorem democratic_quality_gate {α C : Type}
    (pr : DemoProposal α C) (st : DemoLearnerState α C)
    (d : List (String × List Nat)) (log_name : String)
    (propose : Nat → List (DemoProposal α C))
    (sts : List (DemoLearnerState α C)) (fuel : Nat)
    (hkey : ∃ v, dict_getitem (some d) log_name = Except.ok v)
    (hlen : (propose 0).length = sts.length)
    (hno : ∀ q ∈ sts.zip (propose 0), q.2.newL = [] ∨
        demo_q (q.1.L.length + q.2.newL.length)
            (q.1.e + q.2.e_factor * (q.2.newL.length : ℚ))
          ≤ demo_q q.1.L.length q.1.e) :
    ((demo_learner_round pr st).2 = true →
        demo_q st.L.length st.e
          < demo_q (st.L.length + pr.newL.length)
              (st.e + pr.e_factor * (pr.newL.length : ℚ)) ∧
        (demo_learner_round pr st).1.L = st.L ++ pr.newL ∧
        (demo_learner_round pr st).1.added
          = List.zipWith (fun a b => a || b) st.added pr.mask ∧
        (demo_learner_round pr st).1.e
          = st.e + pr.e_factor * (pr.newL.length : ℚ)) ∧
    demo_fit_loop (some d) log_name propose (fuel + 1) sts 0
      = Except.ok (sts, 1, dict_append d log_name 0) := by
  constructor
  · intro hupd
    simp only [demo_learner_round] at hupd ⊢
    by_cases h0 : 0 < pr.newL.length
    · rw [if_pos h0] at hupd ⊢
      by_cases hg : demo_q (st.L.length + pr.newL.length)
          (st.e + pr.e_factor * (pr.newL.length : ℚ)) ≤ demo_q st.L.length st.e
      · rw [if_pos hg] at hupd
        simp at hupd
      · rw [if_neg hg] at hupd ⊢
        exact ⟨lt_of_not_ge hg, rfl, rfl, rfl⟩
    · rw [if_neg h0] at hupd
      simp at hupd
  · have hround : demo_round (propose 0) sts = (sts, false) :=
      demo_round_no_accept _ _ hlen hno
    obtain ⟨v, hv⟩ := hkey
    simp [demo_fit_loop, hround, hv]

/-- Witness for the Democratic quality gate: one learner, a proposal with
no new instances, a save_dict holding the key; the loop returns after one
round with the learner unchanged. -/
theorem democratic_quality_gate_witness :
    ((demo_learner_round (⟨0, [], [], []⟩ : DemoProposal Nat Nat)
          ⟨[], [], [], 0⟩).2 = true →
        demo_q (([] : List Nat).length) (0 : ℚ)
          < demo_q ((([] : List Nat)).length + ([] : List Nat).length)
              ((0 : ℚ) + 0 * ((([] : List Nat).length : Nat) : ℚ)) ∧
        (demo_learner_round (⟨0, [], [], []⟩ : DemoProposal Nat Nat)
            ⟨[], [], [], 0⟩).1.L = ([] : List Nat) ++ [] ∧
        (demo_learner_round (⟨0, [], [], []⟩ : DemoProposal Nat Nat)
            ⟨[], [], [], 0⟩).1.added
          = List.zipWith (fun a b => a || b) [] [] ∧
        (demo_learner_round (⟨0, [], [], []⟩ : DemoProposal Nat Nat)
            ⟨[], [], [], 0⟩).1.e
          = (0 : ℚ) + 0 * ((([] : List Nat).length : Nat) : ℚ)) ∧
    demo_fit_loop (some [("a", [])]) "a"
        (fun _ => [(⟨0, [], [], []⟩ : DemoProposal Nat Nat)])
        (0 + 1) [⟨[], [], [], 0⟩] 0
      = Except.ok ([⟨[], [], [], 0⟩], 1, dict_append [("a", [])] "a" 0) :=
  democratic_quality_gate ⟨0, [], [], []⟩ ⟨[], [], [], 0⟩ [("a", [])] "a"
    (fun _ => [⟨0, [], [], []⟩]) [⟨[], [], [], 0⟩] 0
    ⟨[], by simp [dict_getitem, List.find?]⟩ rfl
    (by
      intro q hq
      left
      rw [List.zip_cons_cons] at hq
      rcases List.mem_cons.mp hq with h | h
      · rw [h]
      · simp at h)

end Sslearn
